import Mathlib

/-!
Shallow embedding of the avs_commons persistence engine
(src/persistence/src/persistence.c) and proofs about it.

Modelling conventions:
* a wire byte is a `Nat` (< 256 by construction of the encoders);
* the store-side stream is the list of bytes written so far
  (`avs_stream_write` on a healthy stream always succeeds);
* the restore/ignore-side stream is the list of not-yet-consumed bytes;
* C return codes are `Int` (0 = success, nonzero = failure);
* `size_t` values are unbounded `Nat`; `uint32_t` truncation is `% 2 ^ 32`;
* `float`/`double` values are represented by their 32 or 64 bit IEEE bit
  patterns: `avs_htonf`/`avs_ntohf` and friends are pure byte-order
  transforms of those patterns, so the codec only ever sees the pattern;
* fallible allocation is an explicit boolean oracle where the code calls
  `malloc`/`AVS_LIST_NEW_BUFFER`/`AVS_RBTREE_ELEM_NEW_BUFFER`;
* the caller-supplied element handlers are functions from the (zeroed)
  element and the input stream to (return code, populated element, rest
  of stream) on the restore side, and from the element to (return code,
  bytes written) on the store side;
* the cleanup callback is side-effecting in C; the model records the
  elements it was invoked on in a `cleaned` list.
-/

/-- Big-endian encoding of `v` on `n` bytes (models `avs_convert_be16`,
`avs_convert_be32`, `avs_convert_be64` followed by a raw write). -/
def beBytes : Nat → Nat → List Nat
  | 0, _ => []
  | n + 1, v => v / 256 ^ n % 256 :: beBytes n v

/-- Big-endian decoding of a byte list (models a raw read followed by
`avs_convert_beXX`). -/
def beDec (bs : List Nat) : Nat :=
  bs.foldl (fun acc b => acc * 256 + b) 0

theorem beBytes_length (n v : Nat) : (beBytes n v).length = n := by
  induction n generalizing v with
  | zero => rfl
  | succ n ih => simp [beBytes, ih]

theorem beBytes_foldl (n v a : Nat) :
    (beBytes n v).foldl (fun acc b => acc * 256 + b) a
      = a * 256 ^ n + v % 256 ^ n := by
  induction n generalizing a with
  | zero => simp [beBytes, Nat.mod_one]
  | succ n ih =>
    simp only [beBytes, List.foldl_cons, ih]
    rw [pow_succ, Nat.mod_mul]
    ring

theorem beDec_beBytes (n v : Nat) : beDec (beBytes n v) = v % 256 ^ n := by
  simpa [beDec] using beBytes_foldl n v 0

theorem beDec_beBytes_of_lt {n v : Nat} (h : v < 256 ^ n) :
    beDec (beBytes n v) = v := by
  rw [beDec_beBytes, Nat.mod_eq_of_lt h]

/-- Models `avs_stream_read_reliably`: either exactly `n` bytes are
consumed and returned, or the read fails (short read). -/
def avs_stream_read_reliably (n : Nat) (s : List Nat) :
    Option (List Nat × List Nat) :=
  if n ≤ s.length then some (s.take n, s.drop n) else none

theorem read_reliably_append {bs : List Nat} {n : Nat} (r : List Nat)
    (h : bs.length = n) :
    avs_stream_read_reliably n (bs ++ r) = some (bs, r) := by
  subst h
  simp [avs_stream_read_reliably, List.take_left, List.drop_left]

/-! ### Store-side codec (PERSIST section of persistence.c)

Each store operation returns `(retval, bytes written to the stream)`;
`avs_stream_write` on the modelled stream always succeeds. -/

/-- `persist_bool`: writes the one byte of the C `bool` object. -/
def persist_bool (value : Bool) : Int × List Nat :=
  (0, [if value then 1 else 0])

/-- `persist_bytes`: raw write of the buffer. -/
def persist_bytes (buffer : List Nat) : Int × List Nat :=
  (0, buffer)

/-- `persist_u16`: `avs_convert_be16` then a 2-byte write. -/
def persist_u16 (value : Nat) : Int × List Nat :=
  (0, beBytes 2 value)

/-- `persist_u32`: `avs_convert_be32` then a 4-byte write. -/
def persist_u32 (value : Nat) : Int × List Nat :=
  (0, beBytes 4 value)

/-- `persist_u64`: `avs_convert_be64` then an 8-byte write. -/
def persist_u64 (value : Nat) : Int × List Nat :=
  (0, beBytes 8 value)

/-- `persist_float`: `avs_htonf` (big-endian form of the 32-bit pattern)
then a 4-byte write; `value` is the IEEE bit pattern. -/
def persist_float (value : Nat) : Int × List Nat :=
  (0, beBytes 4 value)

/-- `persist_double`: `avs_htond` then an 8-byte write; `value` is the
64-bit IEEE bit pattern. -/
def persist_double (value : Nat) : Int × List Nat :=
  (0, beBytes 8 value)

/-- `persist_sized_buffer`: truncates the `size_t` size to `uint32_t`
(`size32 = (uint32_t) *size_ptr`), merely LOGs when the truncation loses
information, writes `size32`, then — when `size32 > 0` — writes
`*size_ptr` (i.e. ALL) bytes of the buffer. -/
def persist_sized_buffer (data : List Nat) : Int × List Nat :=
  let size32 := data.length % 2 ^ 32
  let r1 := persist_u32 size32
  if r1.1 = 0 ∧ 0 < size32 then
    let r2 := persist_bytes data
    (r2.1, r1.2 ++ r2.2)
  else
    r1

/-- `persist_string`: size is `strlen + 1` for a non-null pointer, else 0;
delegates to `persist_sized_buffer`.  A C string is modelled as its
content bytes without the terminating NUL (`none` = null pointer). -/
def persist_string (s : Option (List Nat)) : Int × List Nat :=
  match s with
  | none => persist_sized_buffer []
  | some content => persist_sized_buffer (content ++ [0])

/-- The element loop shared by `persist_list` and `persist_tree`:
invoke the handler on each element, break on the first failure (the
failing handler's own output stays on the stream). -/
def persist_collection_elems (handler : α → Int × List Nat) :
    List α → Int × List Nat
  | [] => (0, [])
  | e :: es =>
    let r := handler e
    if r.1 = 0 then
      let r2 := persist_collection_elems handler es
      (r2.1, r.2 ++ r2.2)
    else
      r

/-- `persist_list`: fails up front when the element count does not fit in
32 bits, else writes the 32-bit count and runs the element loop in
insertion order. -/
def persist_list (handler : α → Int × List Nat) (l : List α) :
    Int × List Nat :=
  let count := l.length
  let count32 := count % 2 ^ 32
  if count ≠ count32 then
    (-1, [])
  else
    let r1 := persist_u32 count32
    if r1.1 = 0 then
      let r2 := persist_collection_elems handler l
      (r2.1, r1.2 ++ r2.2)
    else
      r1

/-- `persist_tree`: same as `persist_list` but over the red-black tree,
traversed in ascending key order (the tree is modelled as its sorted
element list). -/
def persist_tree (handler : α → Int × List Nat) (t : List α) :
    Int × List Nat :=
  let count := t.length
  let count32 := count % 2 ^ 32
  if count ≠ count32 then
    (-1, [])
  else
    let r1 := persist_u32 count32
    if r1.1 = 0 then
      let r2 := persist_collection_elems handler t
      (r2.1, r1.2 ++ r2.2)
    else
      r1

/-! ### Restore-side codec (RESTORE section of persistence.c)

Each restore operation consumes bytes from the front of the input list.
On a read failure the C stream position is unspecified; the model leaves
the input unchanged there (no claim depends on the position after a
failed read). -/

/-- `restore_bool`: reads 1 byte straight into the `bool` object; any
non-zero byte is a C `true`. -/
def restore_bool (s : List Nat) : Int × Bool × List Nat :=
  match avs_stream_read_reliably 1 s with
  | some (bs, rest) => (0, decide (bs.headD 0 ≠ 0), rest)
  | none => (-1, false, s)

/-- `restore_bytes`: reads exactly `buffer_size` bytes into the caller's
buffer. On failure the buffer keeps its previous contents. -/
def restore_bytes (buffer : List Nat) (s : List Nat) :
    Int × List Nat × List Nat :=
  match avs_stream_read_reliably buffer.length s with
  | some (bs, rest) => (0, bs, rest)
  | none => (-1, buffer, s)

/-- `restore_u16`: reads 2 bytes, converts from big-endian (the C code
only stores through `out` when it is non-null and the read succeeded). -/
def restore_u16 (s : List Nat) : Int × Nat × List Nat :=
  match avs_stream_read_reliably 2 s with
  | some (bs, rest) => (0, beDec bs, rest)
  | none => (-1, 0, s)

/-- `restore_u32`: reads 4 bytes, converts from big-endian. -/
def restore_u32 (s : List Nat) : Int × Nat × List Nat :=
  match avs_stream_read_reliably 4 s with
  | some (bs, rest) => (0, beDec bs, rest)
  | none => (-1, 0, s)

/-- `restore_u64`: reads 8 bytes, converts from big-endian. -/
def restore_u64 (s : List Nat) : Int × Nat × List Nat :=
  match avs_stream_read_reliably 8 s with
  | some (bs, rest) => (0, beDec bs, rest)
  | none => (-1, 0, s)

/-- `restore_float`: reads 4 bytes, `avs_ntohf`; the result is the IEEE
bit pattern. -/
def restore_float (s : List Nat) : Int × Nat × List Nat :=
  match avs_stream_read_reliably 4 s with
  | some (bs, rest) => (0, beDec bs, rest)
  | none => (-1, 0, s)

/-- `restore_double`: reads 8 bytes, `avs_ntohd`. -/
def restore_double (s : List Nat) : Int × Nat × List Nat :=
  match avs_stream_read_reliably 8 s with
  | some (bs, rest) => (0, beDec bs, rest)
  | none => (-1, 0, s)

/-- `restore_sized_buffer` (asserts `*data_ptr == NULL`,
`*size_ptr == 0` on entry): reads the 32-bit size; size 0 leaves the
output null/zero; otherwise allocates (`allocOk` models `malloc`),
reads the payload, and on a short read frees the allocation and nulls
the output. Returns `(retval, data, size, rest)`. -/
def restore_sized_buffer (allocOk : Bool) (s : List Nat) :
    Int × Option (List Nat) × Nat × List Nat :=
  let r := restore_u32 s
  if r.1 ≠ 0 then
    (r.1, none, 0, r.2.2)
  else if r.2.1 = 0 then
    (0, none, 0, r.2.2)
  else if !allocOk then
    (-1, none, 0, r.2.2)
  else
    match avs_stream_read_reliably r.2.1 r.2.2 with
    | some (bs, rest) => (0, some bs, r.2.1, rest)
    | none => (-1, none, 0, r.2.2)

/-- `restore_string`: delegates to `restore_sized_buffer`, then — when
the size is positive — checks that the final byte is NUL; a violation
frees the buffer, nulls the pointer and returns an error.
Returns `(retval, string, rest)`. -/
def restore_string (allocOk : Bool) (s : List Nat) :
    Int × Option (List Nat) × List Nat :=
  let r := restore_sized_buffer allocOk s
  if r.1 ≠ 0 then
    (r.1, r.2.1, r.2.2.2)
  else
    match r.2.1 with
    | none => (0, none, r.2.2.2)
    | some data =>
      if data.getLastD 0 ≠ 0 then
        (-1, none, r.2.2.2)
      else
        (0, some data, r.2.2.2)

/-- Result of a list/tree restore: return code, destination collection,
rest of the stream, and the elements handed to the cleanup callback (in
invocation order). -/
structure CollectionRestoreResult (α : Type) where
  retval : Int
  elems : List α
  rest : List Nat
  cleaned : List α
deriving Repr, DecidableEq

/-- The `while (count--)` loop of `restore_list` (index `i` counts the
iterations so far, so that stateful handlers are expressible): allocate
a fresh zeroed element (`allocOk i` models `AVS_LIST_NEW_BUFFER`),
insert it at the tail BEFORE invoking the handler, then let the handler
populate it; break on the first failure, leaving the failing element in
the list.  Returns `(retval, elements, rest)`. -/
def restore_list_loop (allocOk : Nat → Bool) (newElem : α)
    (handler : Nat → α → List Nat → Int × α × List Nat) :
    Nat → Nat → List Nat → Int × List α × List Nat
  | _, 0, s => (0, [], s)
  | i, m + 1, s =>
    if allocOk i then
      let r := handler i newElem s
      if r.1 = 0 then
        let r2 := restore_list_loop allocOk newElem handler (i + 1) m r.2.2
        (r2.1, r.2.1 :: r2.2.1, r2.2.2)
      else
        (r.1, [r.2.1], r.2.2)
    else
      (-1, [], s)

/-- `restore_list` (asserts the destination list empty on entry): reads
the 32-bit count, runs the loop, and on failure — ONLY when a cleanup
callback was supplied — clears the whole list, invoking cleanup on every
element. -/
def restore_list (allocOk : Nat → Bool) (newElem : α)
    (handler : Nat → α → List Nat → Int × α × List Nat)
    (cleanup : Bool) (s : List Nat) : CollectionRestoreResult α :=
  match avs_stream_read_reliably 4 s with
  | none => ⟨-1, [], s, []⟩
  | some (bs, s1) =>
    let r := restore_list_loop allocOk newElem handler 0 (beDec bs) s1
    if r.1 ≠ 0 ∧ cleanup then
      ⟨r.1, [], r.2.2, r.2.1⟩
    else
      ⟨r.1, r.2.1, r.2.2, []⟩

/-- Sorted insertion into the red-black tree, modelled as a key-sorted
element list (the key of an element is `key e`). -/
def rbtree_sorted_insert (key : α → Nat) (e : α) : List α → List α
  | [] => [e]
  | x :: xs =>
    if key e < key x then e :: x :: xs else x :: rbtree_sorted_insert key e xs

/-- `AVS_RBTREE_INSERT`: when an element with an equal key is already in
the tree, the tree is unchanged and the existing element is returned
(modelled as `none`); otherwise the element is inserted in key order. -/
def rbtree_try_insert (key : α → Nat) (t : List α) (e : α) :
    Option (List α) :=
  if t.any fun x => key x == key e then none
  else some (rbtree_sorted_insert key e t)

/-- The `while (count--)` loop of `restore_tree`: allocate a fresh
element, populate it via the handler, then attempt the unique ordered
insertion; a failed handler or a duplicate-key insertion sets the error,
hands the just-built element to cleanup, and breaks.
Returns `(retval, tree, rest, cleaned)`. -/
def restore_tree_loop (key : α → Nat) (newElem : α)
    (handler : α → List Nat → Int × α × List Nat) :
    Nat → List α → List Nat → Int × List α × List Nat × List α
  | 0, t, s => (0, t, s, [])
  | m + 1, t, s =>
    let r := handler newElem s
    if r.1 = 0 then
      match rbtree_try_insert key t r.2.1 with
      | some t2 => restore_tree_loop key newElem handler m t2 r.2.2
      | none => (-1, t, r.2.2, [r.2.1])
    else
      (r.1, t, r.2.2, [r.2.1])

/-- `restore_tree` (asserts the tree empty and the cleanup callback
present on entry): reads the 32-bit count, runs the loop, and on any
failure clears the WHOLE tree, invoking cleanup on every element. -/
def restore_tree (key : α → Nat) (newElem : α)
    (handler : α → List Nat → Int × α × List Nat)
    (s : List Nat) : CollectionRestoreResult α :=
  match avs_stream_read_reliably 4 s with
  | none => ⟨-1, [], s, []⟩
  | some (bs, s1) =>
    let r := restore_tree_loop key newElem handler (beDec bs) [] s1
    if r.1 ≠ 0 then
      ⟨r.1, [], r.2.2.1, r.2.2.2 ++ r.2.1⟩
    else
      ⟨r.1, r.2.1, r.2.2.1, r.2.2.2⟩

/-! ### Ignore-side codec (IGNORE section of persistence.c)

Every ignore operation takes the destination argument and returns it
untouched (the C code casts it to void); no allocation oracle appears
because the ignore path never allocates. -/

/-- `ignore_bool`: reads 1 byte into a local temporary. -/
def ignore_bool (out : Bool) (s : List Nat) : Int × Bool × List Nat :=
  match avs_stream_read_reliably 1 s with
  | some (_, rest) => (0, out, rest)
  | none => (-1, out, s)

/-- `ignore_bytes`: discards `n` bytes through a bounded 512-byte scratch
buffer, chunk by chunk. -/
def ignore_bytes (n : Nat) (s : List Nat) : Int × List Nat :=
  if h : n = 0 then
    (0, s)
  else
    let chunk := min n 512
    match avs_stream_read_reliably chunk s with
    | some (_, rest) => ignore_bytes (n - chunk) rest
    | none => (-1, s)
termination_by n
decreasing_by
  have h1 : 1 ≤ min n 512 := le_min (Nat.one_le_iff_ne_zero.mpr h) (by omega)
  omega

/-- `ignore_u16`: reads 2 bytes into a local temporary. -/
def ignore_u16 (out : Nat) (s : List Nat) : Int × Nat × List Nat :=
  match avs_stream_read_reliably 2 s with
  | some (_, rest) => (0, out, rest)
  | none => (-1, out, s)

/-- `ignore_u32`: reads 4 bytes into a local temporary. -/
def ignore_u32 (out : Nat) (s : List Nat) : Int × Nat × List Nat :=
  match avs_stream_read_reliably 4 s with
  | some (_, rest) => (0, out, rest)
  | none => (-1, out, s)

/-- `ignore_u64`: reads 8 bytes into a local temporary. -/
def ignore_u64 (out : Nat) (s : List Nat) : Int × Nat × List Nat :=
  match avs_stream_read_reliably 8 s with
  | some (_, rest) => (0, out, rest)
  | none => (-1, out, s)

/-- `ignore_float`: reads 4 bytes into a local temporary. -/
def ignore_float (out : Nat) (s : List Nat) : Int × Nat × List Nat :=
  match avs_stream_read_reliably 4 s with
  | some (_, rest) => (0, out, rest)
  | none => (-1, out, s)

/-- `ignore_double`: reads 8 bytes into a local temporary. -/
def ignore_double (out : Nat) (s : List Nat) : Int × Nat × List Nat :=
  match avs_stream_read_reliably 8 s with
  | some (_, rest) => (0, out, rest)
  | none => (-1, out, s)

/-- The `while (!retval && count--)` loop of `ignore_collection`: the
handler is invoked with a NULL element reference, so it is modelled as a
pure stream transformer. -/
def ignore_collection_loop (handler : List Nat → Int × List Nat) :
    Nat → List Nat → Int × List Nat
  | 0, s => (0, s)
  | m + 1, s =>
    let r := handler s
    if r.1 = 0 then ignore_collection_loop handler m r.2 else r

/-- `ignore_collection`: reads the 32-bit count (via `restore_u32`) and
invokes the handler once per element. -/
def ignore_collection (handler : List Nat → Int × List Nat)
    (s : List Nat) : Int × List Nat :=
  let r := restore_u32 s
  if r.1 = 0 then ignore_collection_loop handler r.2.1 r.2.2 else (r.1, s)

/-- `ignore_sized_buffer`: reads the 32-bit size, then discards that many
bytes; the destination pointer and size are untouched. -/
def ignore_sized_buffer (data : Option (List Nat)) (size : Nat)
    (s : List Nat) : Int × Option (List Nat) × Nat × List Nat :=
  let r := restore_u32 s
  if r.1 = 0 then
    let r2 := ignore_bytes r.2.1 r.2.2
    (r2.1, data, size, r2.2)
  else
    (r.1, data, size, s)

/-- `ignore_string`: delegates to `ignore_sized_buffer`. -/
def ignore_string (str : Option (List Nat)) (s : List Nat) :
    Int × Option (List Nat) × List Nat :=
  let r := ignore_sized_buffer none 0 s
  (r.1, str, r.2.2.2)

/-- `ignore_list`: delegates to `ignore_collection`; the destination list
is untouched. -/
def ignore_list (dest : List α) (handler : List Nat → Int × List Nat)
    (s : List Nat) : Int × List α × List Nat :=
  let r := ignore_collection handler s
  (r.1, dest, r.2)

/-- `ignore_tree`: delegates to `ignore_collection`; the destination tree
is untouched. -/
def ignore_tree (dest : List α) (handler : List Nat → Int × List Nat)
    (s : List Nat) : Int × List α × List Nat :=
  let r := ignore_collection handler s
  (r.1, dest, r.2)

/-! ### Context and mode dispatch -/

/-- The persistence direction enum.  `AVS_PERSISTENCE_UNKNOWN`,
`AVS_PERSISTENCE_STORE` and `AVS_PERSISTENCE_RESTORE` are the members
the source uses; `AVS_PERSISTENCE_IGNORE` — Modelled from the spec: the
header declaring `avs_persistence_direction_t` is not in the sources,
and the spec's data model lists `direction ∈ {Store, Restore, Ignore}`,
so a distinct Ignore member is included to make that part of the spec
statable. -/
inductive avs_persistence_direction_t where
  | AVS_PERSISTENCE_UNKNOWN
  | AVS_PERSISTENCE_STORE
  | AVS_PERSISTENCE_RESTORE
  | AVS_PERSISTENCE_IGNORE
deriving Repr, DecidableEq

/-- Which of the three operation tables the context carries
(`INIT_STORE_CONTEXT` / `INIT_RESTORE_CONTEXT` / `INIT_IGNORE_CONTEXT`
fill the function-pointer fields). -/
inductive impl_table where
  | store_table
  | restore_table
  | ignore_table
deriving Repr, DecidableEq

/-- `avs_persistence_context_t`: direction tag plus the operation table
(the bound stream lives outside the structure in this model: the stream
state is threaded through each operation explicitly). -/
structure avs_persistence_context_t where
  direction : avs_persistence_direction_t
  table : impl_table
deriving Repr, DecidableEq

/-- `avs_persistence_store_context_new`: NULL stream gives NULL context;
otherwise the context is initialized from `INIT_STORE_CONTEXT`, whose
first field is `AVS_PERSISTENCE_STORE`. -/
def avs_persistence_store_context_new (streamPresent : Bool) :
    Option avs_persistence_context_t :=
  if streamPresent then
    some ⟨.AVS_PERSISTENCE_STORE, .store_table⟩
  else
    none

/-- `avs_persistence_restore_context_new`: initialized from
`INIT_RESTORE_CONTEXT`, whose first field is `AVS_PERSISTENCE_RESTORE`. -/
def avs_persistence_restore_context_new (streamPresent : Bool) :
    Option avs_persistence_context_t :=
  if streamPresent then
    some ⟨.AVS_PERSISTENCE_RESTORE, .restore_table⟩
  else
    none

/-- `avs_persistence_ignore_context_new`: initialized from
`INIT_IGNORE_CONTEXT`, whose first field is literally
`AVS_PERSISTENCE_RESTORE` (persistence.c line 523). -/
def avs_persistence_ignore_context_new (streamPresent : Bool) :
    Option avs_persistence_context_t :=
  if streamPresent then
    some ⟨.AVS_PERSISTENCE_RESTORE, .ignore_table⟩
  else
    none

/-- `avs_persistence_direction`: `AVS_PERSISTENCE_UNKNOWN` for a NULL
context, else the stored direction field. -/
def avs_persistence_direction
    (ctx : Option avs_persistence_context_t) :
    avs_persistence_direction_t :=
  match ctx with
  | none => .AVS_PERSISTENCE_UNKNOWN
  | some c => c.direction

/-- The two sides of the bound stream: bytes still to be read and bytes
written so far. -/
structure StreamState where
  inp : List Nat
  out : List Nat
deriving Repr, DecidableEq

/-- Dispatch of `ctx->handle_bytes` (used by `avs_persistence_u8`,
`avs_persistence_i8` and `avs_persistence_bytes`). -/
def dispatch_bytes (t : impl_table) (buffer : List Nat)
    (s : StreamState) : Int × List Nat × StreamState :=
  match t with
  | .store_table =>
    let r := persist_bytes buffer
    (r.1, buffer, ⟨s.inp, s.out ++ r.2⟩)
  | .restore_table =>
    let r := restore_bytes buffer s.inp
    (r.1, r.2.1, ⟨r.2.2, s.out⟩)
  | .ignore_table =>
    let r := ignore_bytes buffer.length s.inp
    (r.1, buffer, ⟨r.2, s.out⟩)

/-- `avs_persistence_u8`: NULL-context check, then
`ctx->handle_bytes(ctx, value, 1)`. -/
def avs_persistence_u8 (ctx : Option avs_persistence_context_t)
    (value : Nat) (s : StreamState) : Int × Nat × StreamState :=
  match ctx with
  | none => (-1, value, s)
  | some c =>
    let r := dispatch_bytes c.table [value] s
    (r.1, r.2.1.headD value, r.2.2)

/-- `avs_persistence_u16`: NULL-context check, then `ctx->handle_u16`. -/
def avs_persistence_u16 (ctx : Option avs_persistence_context_t)
    (value : Nat) (s : StreamState) : Int × Nat × StreamState :=
  match ctx with
  | none => (-1, value, s)
  | some c =>
    match c.table with
    | .store_table =>
      let r := persist_u16 value
      (r.1, value, ⟨s.inp, s.out ++ r.2⟩)
    | .restore_table =>
      let r := restore_u16 s.inp
      (r.1, if r.1 = 0 then r.2.1 else value, ⟨r.2.2, s.out⟩)
    | .ignore_table =>
      let r := ignore_u16 value s.inp
      (r.1, r.2.1, ⟨r.2.2, s.out⟩)

/-- `avs_persistence_u32`: NULL-context check, then `ctx->handle_u32`. -/
def avs_persistence_u32 (ctx : Option avs_persistence_context_t)
    (value : Nat) (s : StreamState) : Int × Nat × StreamState :=
  match ctx with
  | none => (-1, value, s)
  | some c =>
    match c.table with
    | .store_table =>
      let r := persist_u32 value
      (r.1, value, ⟨s.inp, s.out ++ r.2⟩)
    | .restore_table =>
      let r := restore_u32 s.inp
      (r.1, if r.1 = 0 then r.2.1 else value, ⟨r.2.2, s.out⟩)
    | .ignore_table =>
      let r := ignore_u32 value s.inp
      (r.1, r.2.1, ⟨r.2.2, s.out⟩)

/-- `avs_persistence_u64`: NULL-context check, then `ctx->handle_u64`. -/
def avs_persistence_u64 (ctx : Option avs_persistence_context_t)
    (value : Nat) (s : StreamState) : Int × Nat × StreamState :=
  match ctx with
  | none => (-1, value, s)
  | some c =>
    match c.table with
    | .store_table =>
      let r := persist_u64 value
      (r.1, value, ⟨s.inp, s.out ++ r.2⟩)
    | .restore_table =>
      let r := restore_u64 s.inp
      (r.1, if r.1 = 0 then r.2.1 else value, ⟨r.2.2, s.out⟩)
    | .ignore_table =>
      let r := ignore_u64 value s.inp
      (r.1, r.2.1, ⟨r.2.2, s.out⟩)

/-- `avs_persistence_i8`: NULL-context check, then
`ctx->handle_bytes(ctx, value, 1)`; the signed value is its bit-identical
unsigned reinterpretation. -/
def avs_persistence_i8 (ctx : Option avs_persistence_context_t)
    (value : Nat) (s : StreamState) : Int × Nat × StreamState :=
  match ctx with
  | none => (-1, value, s)
  | some c =>
    let r := dispatch_bytes c.table [value] s
    (r.1, r.2.1.headD value, r.2.2)

/-- `avs_persistence_i16`: delegates to `avs_persistence_u16` with the
bit-identical unsigned reinterpretation. -/
def avs_persistence_i16 (ctx : Option avs_persistence_context_t)
    (value : Nat) (s : StreamState) : Int × Nat × StreamState :=
  avs_persistence_u16 ctx value s

/-- `avs_persistence_i32`: delegates to `avs_persistence_u32`. -/
def avs_persistence_i32 (ctx : Option avs_persistence_context_t)
    (value : Nat) (s : StreamState) : Int × Nat × StreamState :=
  avs_persistence_u32 ctx value s

/-- `avs_persistence_i64`: delegates to `avs_persistence_u64`. -/
def avs_persistence_i64 (ctx : Option avs_persistence_context_t)
    (value : Nat) (s : StreamState) : Int × Nat × StreamState :=
  avs_persistence_u64 ctx value s

/-- `avs_persistence_bool`: NULL-context check, then `ctx->handle_bool`. -/
def avs_persistence_bool (ctx : Option avs_persistence_context_t)
    (value : Bool) (s : StreamState) : Int × Bool × StreamState :=
  match ctx with
  | none => (-1, value, s)
  | some c =>
    match c.table with
    | .store_table =>
      let r := persist_bool value
      (r.1, value, ⟨s.inp, s.out ++ r.2⟩)
    | .restore_table =>
      let r := restore_bool s.inp
      (r.1, if r.1 = 0 then r.2.1 else value, ⟨r.2.2, s.out⟩)
    | .ignore_table =>
      let r := ignore_bool value s.inp
      (r.1, r.2.1, ⟨r.2.2, s.out⟩)

/-- `avs_persistence_bytes`: NULL-context check, then
`ctx->handle_bytes`. -/
def avs_persistence_bytes (ctx : Option avs_persistence_context_t)
    (buffer : List Nat) (s : StreamState) :
    Int × List Nat × StreamState :=
  match ctx with
  | none => (-1, buffer, s)
  | some c => dispatch_bytes c.table buffer s

/-- `avs_persistence_float`: NULL-context check, then
`ctx->handle_float`; the value is the 32-bit IEEE pattern. -/
def avs_persistence_float (ctx : Option avs_persistence_context_t)
    (value : Nat) (s : StreamState) : Int × Nat × StreamState :=
  match ctx with
  | none => (-1, value, s)
  | some c =>
    match c.table with
    | .store_table =>
      let r := persist_float value
      (r.1, value, ⟨s.inp, s.out ++ r.2⟩)
    | .restore_table =>
      let r := restore_float s.inp
      (r.1, if r.1 = 0 then r.2.1 else value, ⟨r.2.2, s.out⟩)
    | .ignore_table =>
      let r := ignore_float value s.inp
      (r.1, r.2.1, ⟨r.2.2, s.out⟩)

/-- `avs_persistence_double`: NULL-context check, then
`ctx->handle_double`; the value is the 64-bit IEEE pattern. -/
def avs_persistence_double (ctx : Option avs_persistence_context_t)
    (value : Nat) (s : StreamState) : Int × Nat × StreamState :=
  match ctx with
  | none => (-1, value, s)
  | some c =>
    match c.table with
    | .store_table =>
      let r := persist_double value
      (r.1, value, ⟨s.inp, s.out ++ r.2⟩)
    | .restore_table =>
      let r := restore_double s.inp
      (r.1, if r.1 = 0 then r.2.1 else value, ⟨r.2.2, s.out⟩)
    | .ignore_table =>
      let r := ignore_double value s.inp
      (r.1, r.2.1, ⟨r.2.2, s.out⟩)

/-- `avs_persistence_sized_buffer`: NULL-context check, then
`ctx->handle_sized_buffer`.  `allocOk` models `malloc` on the restore
path. -/
def avs_persistence_sized_buffer (ctx : Option avs_persistence_context_t)
    (data : Option (List Nat)) (size : Nat) (allocOk : Bool)
    (s : StreamState) :
    Int × Option (List Nat) × Nat × StreamState :=
  match ctx with
  | none => (-1, data, size, s)
  | some c =>
    match c.table with
    | .store_table =>
      let r := persist_sized_buffer (data.getD [])
      (r.1, data, size, ⟨s.inp, s.out ++ r.2⟩)
    | .restore_table =>
      let r := restore_sized_buffer allocOk s.inp
      (r.1, r.2.1, r.2.2.1, ⟨r.2.2.2, s.out⟩)
    | .ignore_table =>
      let r := ignore_sized_buffer data size s.inp
      (r.1, r.2.1, r.2.2.1, ⟨r.2.2.2, s.out⟩)

/-- `avs_persistence_string`: NULL-context check, then
`ctx->handle_string`. -/
def avs_persistence_string (ctx : Option avs_persistence_context_t)
    (str : Option (List Nat)) (allocOk : Bool) (s : StreamState) :
    Int × Option (List Nat) × StreamState :=
  match ctx with
  | none => (-1, str, s)
  | some c =>
    match c.table with
    | .store_table =>
      let r := persist_string str
      (r.1, str, ⟨s.inp, s.out ++ r.2⟩)
    | .restore_table =>
      let r := restore_string allocOk s.inp
      (r.1, r.2.1, ⟨r.2.2, s.out⟩)
    | .ignore_table =>
      let r := ignore_string str s.inp
      (r.1, r.2.1, ⟨r.2.2, s.out⟩)

/-- `avs_persistence_list`: NULL-context check, then `ctx->handle_list`.
The one C handler is modelled by its three mode-specific views
(`storeH`, `restoreH`, `ignoreH`); `cleanup` tells whether a cleanup
callback was supplied.  Returns
`(retval, destination list, stream, cleaned elements)`. -/
def avs_persistence_list (ctx : Option avs_persistence_context_t)
    (dest : List α) (allocOk : Nat → Bool) (newElem : α)
    (storeH : α → Int × List Nat)
    (restoreH : Nat → α → List Nat → Int × α × List Nat)
    (ignoreH : List Nat → Int × List Nat)
    (cleanup : Bool) (s : StreamState) :
    Int × List α × StreamState × List α :=
  match ctx with
  | none => (-1, dest, s, [])
  | some c =>
    match c.table with
    | .store_table =>
      let r := persist_list storeH dest
      (r.1, dest, ⟨s.inp, s.out ++ r.2⟩, [])
    | .restore_table =>
      let r := restore_list allocOk newElem restoreH cleanup s.inp
      (r.retval, r.elems, ⟨r.rest, s.out⟩, r.cleaned)
    | .ignore_table =>
      let r := ignore_list dest ignoreH s.inp
      (r.1, r.2.1, ⟨r.2.2, s.out⟩, [])

/-- `avs_persistence_tree`: NULL-context check, then `ctx->handle_tree`. -/
def avs_persistence_tree (ctx : Option avs_persistence_context_t)
    (dest : List α) (key : α → Nat) (newElem : α)
    (storeH : α → Int × List Nat)
    (restoreH : α → List Nat → Int × α × List Nat)
    (ignoreH : List Nat → Int × List Nat)
    (s : StreamState) :
    Int × List α × StreamState × List α :=
  match ctx with
  | none => (-1, dest, s, [])
  | some c =>
    match c.table with
    | .store_table =>
      let r := persist_tree storeH dest
      (r.1, dest, ⟨s.inp, s.out ++ r.2⟩, [])
    | .restore_table =>
      let r := restore_tree key newElem restoreH s.inp
      (r.retval, r.elems, ⟨r.rest, s.out⟩, r.cleaned)
    | .ignore_table =>
      let r := ignore_tree dest ignoreH s.inp
      (r.1, r.2.1, ⟨r.2.2, s.out⟩, [])

/-! ### Concrete element handlers for u32-element collections

A collection element handler in C receives the context and dispatches
through it; these are the three mode views of the handler that persists
a single `uint32_t` element (key = the element itself). -/

/-- Store view: `avs_persistence_u32` on a store context. -/
def u32_elem_store_handler (e : Nat) : Int × List Nat :=
  persist_u32 e

/-- Restore view: `avs_persistence_u32` on a restore context, writing
into the freshly allocated element. -/
def u32_elem_restore_handler (e : Nat) (s : List Nat) :
    Int × Nat × List Nat :=
  let r := restore_u32 s
  (r.1, if r.1 = 0 then r.2.1 else e, r.2.2)

/-- Ignore view: `avs_persistence_u32` on an ignore context (NULL
element reference). -/
def u32_elem_ignore_handler (s : List Nat) : Int × List Nat :=
  let r := ignore_u32 0 s
  (r.1, r.2.2)

/-! ### Helper lemmas -/

theorem beDec_beBytes2 (v : Nat) : beDec (beBytes 2 v) = v % 2 ^ 16 := by
  rw [beDec_beBytes]; norm_num

theorem beDec_beBytes4 (v : Nat) : beDec (beBytes 4 v) = v % 2 ^ 32 := by
  rw [beDec_beBytes]; norm_num

theorem beDec_beBytes8 (v : Nat) : beDec (beBytes 8 v) = v % 2 ^ 64 := by
  rw [beDec_beBytes]; norm_num

theorem restore_u16_wire {v : Nat} (r : List Nat) (hv : v < 2 ^ 16) :
    restore_u16 (beBytes 2 v ++ r) = (0, v, r) := by
  simp only [restore_u16, read_reliably_append r (beBytes_length 2 v),
    beDec_beBytes2]
  rw [Nat.mod_eq_of_lt hv]

theorem restore_u32_wire {v : Nat} (r : List Nat) (hv : v < 2 ^ 32) :
    restore_u32 (beBytes 4 v ++ r) = (0, v, r) := by
  simp only [restore_u32, read_reliably_append r (beBytes_length 4 v),
    beDec_beBytes4]
  rw [Nat.mod_eq_of_lt hv]

theorem restore_u64_wire {v : Nat} (r : List Nat) (hv : v < 2 ^ 64) :
    restore_u64 (beBytes 8 v ++ r) = (0, v, r) := by
  simp only [restore_u64, read_reliably_append r (beBytes_length 8 v),
    beDec_beBytes8]
  rw [Nat.mod_eq_of_lt hv]

theorem ignore_bytes_exact :
    ∀ (n : Nat) (bs r : List Nat), bs.length = n →
      ignore_bytes n (bs ++ r) = (0, r) := by
  intro n
  induction n using Nat.strong_induction_on with
  | _ n ih =>
    intro bs r hlen
    by_cases h0 : n = 0
    · subst h0
      have hbs : bs = [] := List.eq_nil_of_length_eq_zero hlen
      subst hbs
      rw [ignore_bytes]
      simp
    · have hchunkn : min n 512 ≤ n := Nat.min_le_left n 512
      have hle : min n 512 ≤ (bs ++ r).length := by
        rw [List.length_append, hlen]
        omega
      have hread : avs_stream_read_reliably (min n 512) (bs ++ r)
          = some ((bs ++ r).take (min n 512), (bs ++ r).drop (min n 512)) := by
        unfold avs_stream_read_reliably
        rw [if_pos hle]
      have hdrop : (bs ++ r).drop (min n 512) = bs.drop (min n 512) ++ r :=
        List.drop_append_of_le_length (by omega)
      rw [ignore_bytes, dif_neg h0]
      simp only [hread, hdrop]
      exact ih (n - min n 512) (by omega) (bs.drop (min n 512)) r
        (by simp [List.length_drop, hlen])

theorem persist_collection_elems_append (handler : α → Int × List Nat)
    (good : List α) (bad : α) (rest : List α)
    (hgood : ∀ e ∈ good, (handler e).1 = 0)
    (hbad : (handler bad).1 ≠ 0) :
    persist_collection_elems handler (good ++ bad :: rest)
      = ((handler bad).1,
          (good.map fun e => (handler e).2).flatten ++ (handler bad).2) := by
  induction good with
  | nil => simp [persist_collection_elems, hbad]
  | cons e es ih =>
    have he : (handler e).1 = 0 := hgood e (by simp)
    have ihr := ih fun x hx => hgood x (by simp [hx])
    simp [persist_collection_elems, he, ihr, List.append_assoc]

theorem restore_list_loop_handler_fail (newElem : α)
    (handler : Nat → α → List Nat → Int × α × List Nat) :
    ∀ (k i m : Nat) (s : List Nat),
      k < m →
      (∀ j, j < k → ∀ e s2, (handler (i + j) e s2).1 = 0) →
      (∀ e s2, (handler (i + k) e s2).1 ≠ 0) →
      (restore_list_loop (fun _ => true) newElem handler i m s).1 ≠ 0 ∧
        (restore_list_loop (fun _ => true) newElem handler i m s).2.1.length
          = k + 1 := by
  intro k
  induction k with
  | zero =>
    intro i m s hkm _ hfail
    obtain ⟨m1, rfl⟩ : ∃ m1, m = m1 + 1 := ⟨m - 1, by omega⟩
    have h := hfail newElem s
    simp only [Nat.add_zero] at h
    simp [restore_list_loop, h]
  | succ k ih =>
    intro i m s hkm hsucc hfail
    obtain ⟨m1, rfl⟩ : ∃ m1, m = m1 + 1 := ⟨m - 1, by omega⟩
    have h0 : (handler i newElem s).1 = 0 := by
      have := hsucc 0 (by omega) newElem s
      simpa using this
    have hsucc2 : ∀ j, j < k → ∀ e s2, (handler (i + 1 + j) e s2).1 = 0 := by
      intro j hj e s2
      have := hsucc (j + 1) (by omega) e s2
      have harith : i + (j + 1) = i + 1 + j := by omega
      rwa [harith] at this
    have hfail2 : ∀ e s2, (handler (i + 1 + k) e s2).1 ≠ 0 := by
      intro e s2
      have := hfail e s2
      have harith : i + (k + 1) = i + 1 + k := by omega
      rwa [harith] at this
    have ihr := ih (i + 1) m1 ((handler i newElem s).2.2) (by omega)
      hsucc2 hfail2
    simp [restore_list_loop, h0, ihr.1, ihr.2]

theorem restore_list_loop_alloc_fail (newElem : α)
    (handler : Nat → α → List Nat → Int × α × List Nat)
    (allocOk : Nat → Bool) :
    ∀ (k i m : Nat) (s : List Nat),
      k < m →
      (∀ j, j < k → allocOk (i + j) = true) →
      allocOk (i + k) = false →
      (∀ j, j < k → ∀ e s2, (handler (i + j) e s2).1 = 0) →
      (restore_list_loop allocOk newElem handler i m s).1 ≠ 0 ∧
        (restore_list_loop allocOk newElem handler i m s).2.1.length = k := by
  intro k
  induction k with
  | zero =>
    intro i m s hkm _ hfailalloc _
    obtain ⟨m1, rfl⟩ : ∃ m1, m = m1 + 1 := ⟨m - 1, by omega⟩
    simp only [Nat.add_zero] at hfailalloc
    simp [restore_list_loop, hfailalloc]
  | succ k ih =>
    intro i m s hkm halloc hfailalloc hsucc
    obtain ⟨m1, rfl⟩ : ∃ m1, m = m1 + 1 := ⟨m - 1, by omega⟩
    have ha0 : allocOk i = true := by
      have := halloc 0 (by omega)
      simpa using this
    have h0 : (handler i newElem s).1 = 0 := by
      have := hsucc 0 (by omega) newElem s
      simpa using this
    have halloc2 : ∀ j, j < k → allocOk (i + 1 + j) = true := by
      intro j hj
      have := halloc (j + 1) (by omega)
      have harith : i + (j + 1) = i + 1 + j := by omega
      rwa [harith] at this
    have hfailalloc2 : allocOk (i + 1 + k) = false := by
      have harith : i + (k + 1) = i + 1 + k := by omega
      rwa [harith] at hfailalloc
    have hsucc2 : ∀ j, j < k → ∀ e s2, (handler (i + 1 + j) e s2).1 = 0 := by
      intro j hj e s2
      have := hsucc (j + 1) (by omega) e s2
      have harith : i + (j + 1) = i + 1 + j := by omega
      rwa [harith] at this
    have ihr := ih (i + 1) m1 ((handler i newElem s).2.2) (by omega)
      halloc2 hfailalloc2 hsucc2
    simp [restore_list_loop, ha0, h0, ihr.1, ihr.2]

theorem restore_list_loop_u32 :
    ∀ (ks : List Nat) (i : Nat) (r : List Nat),
      restore_list_loop (fun _ => true) 0
          (fun _ e s => u32_elem_restore_handler e s) i ks.length
          ((ks.map (beBytes 4)).flatten ++ r)
        = (0, ks.map (· % 2 ^ 32), r) := by
  intro ks
  induction ks with
  | nil =>
    intro i r
    simp [restore_list_loop]
  | cons k ks ih =>
    intro i r
    have hw : ((k :: ks).map (beBytes 4)).flatten ++ r
        = beBytes 4 k ++ ((ks.map (beBytes 4)).flatten ++ r) := by
      simp [List.append_assoc]
    rw [hw]
    have hh : u32_elem_restore_handler 0
        (beBytes 4 k ++ ((ks.map (beBytes 4)).flatten ++ r))
        = (0, k % 2 ^ 32, (ks.map (beBytes 4)).flatten ++ r) := by
      simp [u32_elem_restore_handler, restore_u32,
        read_reliably_append ((ks.map (beBytes 4)).flatten ++ r)
          (beBytes_length 4 k), beDec_beBytes4]
    simp only [List.length_cons, restore_list_loop, hh, ih (i + 1) r]
    simp

theorem ignore_collection_loop_u32 :
    ∀ (ks : List Nat) (r : List Nat),
      ignore_collection_loop u32_elem_ignore_handler ks.length
          ((ks.map (beBytes 4)).flatten ++ r) = (0, r) := by
  intro ks
  induction ks with
  | nil =>
    intro r
    simp [ignore_collection_loop]
  | cons k ks ih =>
    intro r
    have hw : ((k :: ks).map (beBytes 4)).flatten ++ r
        = beBytes 4 k ++ ((ks.map (beBytes 4)).flatten ++ r) := by
      simp [List.append_assoc]
    rw [hw]
    have hh : u32_elem_ignore_handler
        (beBytes 4 k ++ ((ks.map (beBytes 4)).flatten ++ r))
        = (0, (ks.map (beBytes 4)).flatten ++ r) := by
      simp [u32_elem_ignore_handler, ignore_u32,
        read_reliably_append ((ks.map (beBytes 4)).flatten ++ r)
          (beBytes_length 4 k)]
    simp only [List.length_cons, ignore_collection_loop, hh, ih r]
    simp

theorem rbtree_sorted_insert_perm (key : α → Nat) (e : α) :
    ∀ t : List α, List.Perm (rbtree_sorted_insert key e t) (e :: t) := by
  intro t
  induction t with
  | nil => simp [rbtree_sorted_insert]
  | cons x xs ih =>
    rw [rbtree_sorted_insert]
    by_cases h : key e < key x
    · rw [if_pos h]
    · rw [if_neg h]
      exact (ih.cons x).trans (List.Perm.swap e x xs)

theorem restore_tree_loop_u32_nodup :
    ∀ (ks : List Nat) (t : List Nat) (r : List Nat),
      t.Nodup →
      (restore_tree_loop id 0 u32_elem_restore_handler ks.length t
          ((ks.map (beBytes 4)).flatten ++ r)).1 = 0 →
      (t ++ ks.map (· % 2 ^ 32)).Nodup := by
  intro ks
  induction ks with
  | nil =>
    intro t r ht _
    simpa using ht
  | cons k ks ih =>
    intro t r ht hrun
    have hw : ((k :: ks).map (beBytes 4)).flatten ++ r
        = beBytes 4 k ++ ((ks.map (beBytes 4)).flatten ++ r) := by
      simp [List.append_assoc]
    rw [hw] at hrun
    have hh : u32_elem_restore_handler 0
        (beBytes 4 k ++ ((ks.map (beBytes 4)).flatten ++ r))
        = (0, k % 2 ^ 32, (ks.map (beBytes 4)).flatten ++ r) := by
      simp [u32_elem_restore_handler, restore_u32,
        read_reliably_append ((ks.map (beBytes 4)).flatten ++ r)
          (beBytes_length 4 k), beDec_beBytes4]
    simp only [List.map_cons]
    by_cases hdup : t.any fun x => x == k % 2 ^ 32
    · have hins : rbtree_try_insert id t (k % 2 ^ 32) = none := by
        simp only [rbtree_try_insert, id_eq]
        rw [if_pos hdup]
      simp only [List.length_cons, restore_tree_loop, hh, hins] at hrun
      simp at hrun
    · have hins : rbtree_try_insert id t (k % 2 ^ 32)
          = some (rbtree_sorted_insert id (k % 2 ^ 32) t) := by
        simp only [rbtree_try_insert, id_eq]
        rw [if_neg hdup]
      simp only [List.length_cons, restore_tree_loop, hh, hins] at hrun
      have hnotmem : (k % 2 ^ 32) ∉ t := by
        intro hmem
        exact hdup (List.any_eq_true.mpr ⟨_, hmem, by simp⟩)
      have ht2 : (rbtree_sorted_insert id (k % 2 ^ 32) t).Nodup :=
        ((rbtree_sorted_insert_perm id (k % 2 ^ 32) t).nodup_iff).mpr
          (List.nodup_cons.mpr ⟨hnotmem, ht⟩)
    -- recurse
      have hrec := ih (rbtree_sorted_insert id (k % 2 ^ 32) t) r ht2 hrun
      have hp1 : List.Perm
          (rbtree_sorted_insert id (k % 2 ^ 32) t ++ ks.map (· % 2 ^ 32))
          ((k % 2 ^ 32) :: (t ++ ks.map (· % 2 ^ 32))) := by
        have := (rbtree_sorted_insert_perm id (k % 2 ^ 32) t).append_right
          (ks.map (· % 2 ^ 32))
        simpa using this
      have hp2 : List.Perm
          ((k % 2 ^ 32) :: (t ++ ks.map (· % 2 ^ 32)))
          (t ++ (k % 2 ^ 32) :: ks.map (· % 2 ^ 32)) :=
        List.perm_middle.symm
      exact ((hp1.trans hp2).nodup_iff).mp hrec

theorem map_mod32_eq_self (ks : List Nat) (h : ∀ x ∈ ks, x < 2 ^ 32) :
    ks.map (· % 2 ^ 32) = ks := by
  conv_rhs => rw [← List.map_id ks]
  exact List.map_congr_left fun x hx => Nat.mod_eq_of_lt (h x hx)

theorem persist_collection_elems_all_ok (handler : α → Int × List Nat)
    (l : List α) (h : ∀ e ∈ l, (handler e).1 = 0) :
    persist_collection_elems handler l
      = (0, (l.map fun e => (handler e).2).flatten) := by
  induction l with
  | nil => simp [persist_collection_elems]
  | cons e es ih =>
    simp [persist_collection_elems, h e (by simp),
      ih fun x hx => h x (by simp [hx])]

theorem persist_list_u32_wire (ks : List Nat) (hlen : ks.length < 2 ^ 32) :
    persist_list u32_elem_store_handler ks
      = (0, beBytes 4 ks.length ++ (ks.map (beBytes 4)).flatten) := by
  have helems := persist_collection_elems_all_ok u32_elem_store_handler ks
    fun e _ => rfl
  have hmod : ks.length % 4294967296 = ks.length := by omega
  simp [persist_list, persist_u32, helems, u32_elem_store_handler, hmod]

theorem persist_sized_buffer_wire (data : List Nat)
    (h : data.length < 2 ^ 32) :
    persist_sized_buffer data = (0, beBytes 4 data.length ++ data) := by
  by_cases h0 : data.length = 0
  · have hnil : data = [] := List.eq_nil_of_length_eq_zero h0
    subst hnil
    simp [persist_sized_buffer, persist_u32]
  · have hmod : data.length % 4294967296 = data.length := by omega
    simp [persist_sized_buffer, persist_u32, persist_bytes, hmod,
      Nat.pos_of_ne_zero h0]

/-! ### Claims -/

/-- C1: the claim says storing a sized buffer whose true size does not
fit in 32 bits fails and writes no bytes.  Evaluating the code at a
buffer of 2 ^ 32 zero bytes shows the opposite: `persist_sized_buffer`
returns 0 (success) and emits the TRUNCATED 32-bit length
`(2 ^ 32) % 2 ^ 32 = 0`, i.e. the four bytes 00 00 00 00, on the
stream.  (The C code only LOGs "Element too big to persist" and carries
on, unlike `persist_list`/`persist_tree` which return -1 on the same
overflow.) -/
theorem C1_persist_sized_buffer_overflow_truncates :
    (persist_sized_buffer (List.replicate (2 ^ 32) 0)).1 = 0 ∧
      (persist_sized_buffer (List.replicate (2 ^ 32) 0)).2
        = [0, 0, 0, 0] := by
  have key : ∀ data : List Nat, data.length = 2 ^ 32 →
      persist_sized_buffer data = (0, [0, 0, 0, 0]) := by
    intro data hlen
    have hmod : data.length % 4294967296 = 0 := by omega
    simp [persist_sized_buffer, persist_u32, hmod, beBytes]
  have h := key (List.replicate (2 ^ 32) 0) (List.length_replicate _ _)
  exact ⟨by rw [h], by rw [h]⟩

/-- C7: every typed operation invoked with a NULL context fails with -1
and leaves the stream state (both the unread input and the written
output) and every destination argument unchanged. -/
theorem C7_null_context_rejects_all_ops {α : Type} (v : Nat) (b : Bool)
    (buf : List Nat) (data : Option (List Nat)) (size : Nat)
    (allocOk : Bool) (str : Option (List Nat)) (destL : List α)
    (allocs : Nat → Bool) (newElem : α) (key : α → Nat)
    (storeH : α → Int × List Nat)
    (restoreH : Nat → α → List Nat → Int × α × List Nat)
    (treeRestoreH : α → List Nat → Int × α × List Nat)
    (ignoreH : List Nat → Int × List Nat) (cleanup : Bool)
    (s : StreamState) :
    avs_persistence_u8 none v s = (-1, v, s) ∧
    avs_persistence_u16 none v s = (-1, v, s) ∧
    avs_persistence_u32 none v s = (-1, v, s) ∧
    avs_persistence_u64 none v s = (-1, v, s) ∧
    avs_persistence_i8 none v s = (-1, v, s) ∧
    avs_persistence_i16 none v s = (-1, v, s) ∧
    avs_persistence_i32 none v s = (-1, v, s) ∧
    avs_persistence_i64 none v s = (-1, v, s) ∧
    avs_persistence_bool none b s = (-1, b, s) ∧
    avs_persistence_bytes none buf s = (-1, buf, s) ∧
    avs_persistence_float none v s = (-1, v, s) ∧
    avs_persistence_double none v s = (-1, v, s) ∧
    avs_persistence_sized_buffer none data size allocOk s
      = (-1, data, size, s) ∧
    avs_persistence_string none str allocOk s = (-1, str, s) ∧
    avs_persistence_list none destL allocs newElem storeH restoreH
      ignoreH cleanup s = (-1, destL, s, []) ∧
    avs_persistence_tree none destL key newElem storeH treeRestoreH
      ignoreH s = (-1, destL, s, []) :=
  ⟨rfl, rfl, rfl, rfl, rfl, rfl, rfl, rfl, rfl, rfl, rfl, rfl, rfl, rfl,
    rfl, rfl⟩

/-- C8: storing a collection (list or tree) whose handler succeeds on
the elements of `good`, then fails on `bad` (writing nothing itself):
the operation aborts with the handler's error, and the stream holds the
full 32-bit count of ALL elements followed by only the successful
element encodings — the count is never corrected. -/
theorem C8_persist_collection_abort_keeps_count {α : Type}
    (handler : α → Int × List Nat) (good : List α) (bad : α)
    (rest : List α)
    (hgood : ∀ e ∈ good, (handler e).1 = 0)
    (hbad : (handler bad).1 ≠ 0)
    (hbadw : (handler bad).2 = [])
    (hlen : (good ++ bad :: rest).length < 2 ^ 32) :
    persist_list handler (good ++ bad :: rest)
      = ((handler bad).1,
          beBytes 4 (good ++ bad :: rest).length
            ++ (good.map fun e => (handler e).2).flatten) ∧
    persist_tree handler (good ++ bad :: rest)
      = ((handler bad).1,
          beBytes 4 (good ++ bad :: rest).length
            ++ (good.map fun e => (handler e).2).flatten) := by
  have helems := persist_collection_elems_append handler good bad rest
    hgood hbad
  have hlen2 : good.length + (rest.length + 1) < 2 ^ 32 := by
    simpa using hlen
  have hmod : (good.length + (rest.length + 1)) % 4294967296
      = good.length + (rest.length + 1) := by omega
  constructor <;>
    simp [persist_list, persist_tree, persist_u32, helems, hbadw, hmod]

/-- C8 witness: a concrete 3-element list whose handler encodes 1 and 3
as 4 bytes but fails on 2: the stream is count 3 then just the encoding
of 1. -/
theorem C8_witness :
    persist_list
        (fun e => if e = 2 then (-1, []) else persist_u32 e)
        ([1] ++ 2 :: [3])
      = (-1, beBytes 4 3 ++ beBytes 4 1) ∧
    persist_tree
        (fun e => if e = 2 then (-1, []) else persist_u32 e)
        ([1] ++ 2 :: [3])
      = (-1, beBytes 4 3 ++ beBytes 4 1) := by
  have h := C8_persist_collection_abort_keeps_count
    (fun e => if e = 2 then (-1, []) else persist_u32 e) [1] 2 [3]
    (by intro e he; simp at he; simp [he, persist_u32])
    (by simp) (by simp) (by simp)
  simpa [persist_u32] using h

/-- C9 counterexample: the ignore-context constructor initializes the
direction field with `AVS_PERSISTENCE_RESTORE` (persistence.c line
523), so the direction accessor does NOT report a distinct Ignore
direction for a context created by `avs_persistence_ignore_context_new`. -/
theorem C9_counterexample_ignore_direction_is_restore :
    avs_persistence_direction (avs_persistence_ignore_context_new true)
        = .AVS_PERSISTENCE_RESTORE ∧
      avs_persistence_direction (avs_persistence_ignore_context_new true)
        ≠ .AVS_PERSISTENCE_IGNORE ∧
      avs_persistence_direction (avs_persistence_ignore_context_new true)
        = avs_persistence_direction
            (avs_persistence_restore_context_new true) := by
  refine ⟨rfl, ?_, rfl⟩
  decide

/-- C9 (amended): the direction accessor returns Store for store
contexts and Restore for restore contexts, but ALSO Restore — not a
distinct Ignore value — for ignore contexts (and Unknown for a NULL
context). -/
theorem C9_direction_of_constructors :
    avs_persistence_direction (avs_persistence_store_context_new true)
        = .AVS_PERSISTENCE_STORE ∧
    avs_persistence_direction (avs_persistence_restore_context_new true)
        = .AVS_PERSISTENCE_RESTORE ∧
    avs_persistence_direction (avs_persistence_ignore_context_new true)
        = .AVS_PERSISTENCE_RESTORE ∧
    avs_persistence_direction none = .AVS_PERSISTENCE_UNKNOWN :=
  ⟨rfl, rfl, rfl, rfl⟩

/-- C2: restoring an ordered sequence that declares N ≥ 2 elements, with
a cleanup callback supplied, where the handler succeeds on its first k
invocations (1 ≤ k ≤ N-1) and fails on the next regardless of stream
content: the restore fails, the destination list ends up with exactly 0
elements, and all k+1 materialized elements (the k populated ones plus
the one the handler failed on) were handed to the cleanup callback. -/
theorem C2_restore_list_failure_clears_all {α : Type} (newElem : α)
    (handler : Nat → α → List Nat → Int × α × List Nat)
    (N k : Nat) (body : List Nat)
    (hN2 : 2 ≤ N) (hN32 : N < 2 ^ 32) (hk1 : 1 ≤ k) (hkN : k < N)
    (hsucc : ∀ j, j < k → ∀ e s2, (handler j e s2).1 = 0)
    (hfail : ∀ e s2, (handler k e s2).1 ≠ 0) :
    (restore_list (fun _ => true) newElem handler true
        (beBytes 4 N ++ body)).retval ≠ 0 ∧
    (restore_list (fun _ => true) newElem handler true
        (beBytes 4 N ++ body)).elems = [] ∧
    (restore_list (fun _ => true) newElem handler true
        (beBytes 4 N ++ body)).cleaned.length = k + 1 := by
  have hloop := restore_list_loop_handler_fail newElem handler k 0 N body
    hkN
    (by intro j hj e s2; simpa using hsucc j hj e s2)
    (by intro e s2; simpa using hfail e s2)
  have hread := read_reliably_append body (beBytes_length 4 N)
  have hcount : beDec (beBytes 4 N) = N := by
    rw [beDec_beBytes4]
    exact Nat.mod_eq_of_lt hN32
  simp only [restore_list, hread, hcount]
  rw [if_pos ⟨hloop.1, trivial⟩]
  exact ⟨hloop.1, rfl, hloop.2⟩

/-- C2 witness: N = 2, a handler that succeeds on invocation 0 and fails
on invocation 1. -/
theorem C2_witness :
    (restore_list (fun _ => true) (0 : Nat)
        (fun j e s => (if j < 1 then 0 else -1, e, s)) true
        (beBytes 4 2 ++ [])).retval ≠ 0 ∧
    (restore_list (fun _ => true) (0 : Nat)
        (fun j e s => (if j < 1 then 0 else -1, e, s)) true
        (beBytes 4 2 ++ [])).elems = [] ∧
    (restore_list (fun _ => true) (0 : Nat)
        (fun j e s => (if j < 1 then 0 else -1, e, s)) true
        (beBytes 4 2 ++ [])).cleaned.length = 1 + 1 :=
  C2_restore_list_failure_clears_all 0
    (fun j e s => (if j < 1 then 0 else -1, e, s)) 2 1 []
    (by decide) (by decide) (by decide) (by decide)
    (by intro j hj e s2; simp [hj])
    (by intro e s2; simp)

/-- C3: restoring a sorted unique collection from a persisted image of
32-bit keys `ks` that contains a duplicate key, starting from an empty
destination tree: the restore fails and the destination tree holds
exactly 0 elements afterwards. -/
theorem C3_restore_tree_duplicate_key_fails_empty (ks : List Nat)
    (r : List Nat) (hlen : ks.length < 2 ^ 32)
    (hks : ∀ x ∈ ks, x < 2 ^ 32) (hdup : ¬ ks.Nodup) :
    (restore_tree id 0 u32_elem_restore_handler
        (beBytes 4 ks.length
          ++ ((ks.map (beBytes 4)).flatten ++ r))).retval ≠ 0 ∧
    (restore_tree id 0 u32_elem_restore_handler
        (beBytes 4 ks.length
          ++ ((ks.map (beBytes 4)).flatten ++ r))).elems = [] := by
  have hread := read_reliably_append ((ks.map (beBytes 4)).flatten ++ r)
    (beBytes_length 4 ks.length)
  have hcount : beDec (beBytes 4 ks.length) = ks.length := by
    rw [beDec_beBytes4]
    exact Nat.mod_eq_of_lt hlen
  have hfail : (restore_tree_loop id 0 u32_elem_restore_handler
      ks.length [] ((ks.map (beBytes 4)).flatten ++ r)).1 ≠ 0 := by
    intro h0
    have hnodup := restore_tree_loop_u32_nodup ks [] r (by simp) h0
    rw [List.nil_append, map_mod32_eq_self ks hks] at hnodup
    exact hdup hnodup
  simp only [restore_tree, hread, hcount]
  rw [if_pos hfail]
  exact ⟨hfail, rfl⟩

/-- C3 witness: the persisted image of the two-element key sequence
[5, 5]. -/
theorem C3_witness :
    (restore_tree id 0 u32_elem_restore_handler
        (beBytes 4 ([5, 5] : List Nat).length
          ++ ((([5, 5] : List Nat).map (beBytes 4)).flatten ++ []))).retval
      ≠ 0 ∧
    (restore_tree id 0 u32_elem_restore_handler
        (beBytes 4 ([5, 5] : List Nat).length
          ++ ((([5, 5] : List Nat).map (beBytes 4)).flatten ++ []))).elems
      = [] :=
  C3_restore_tree_duplicate_key_fails_empty [5, 5] []
    (by decide) (by decide) (by decide)

/-- C10: when NO cleanup callback is supplied to the ordered-sequence
restore, a failure does not clear the partially built list: after a
handler failure on invocation k the destination keeps all k+1
materialized elements, and after an allocation failure at iteration k it
keeps the k elements built before it — unlike the empty-on-failure
behavior with a cleanup callback. -/
theorem C10_restore_list_no_cleanup_keeps_elems {α : Type}
    (newElem : α) (handler : Nat → α → List Nat → Int × α × List Nat)
    (allocOk : Nat → Bool) (N k : Nat) (body : List Nat)
    (hN32 : N < 2 ^ 32) (hkN : k < N) :
    ((∀ j, j < k → ∀ e s2, (handler j e s2).1 = 0) →
      (∀ e s2, (handler k e s2).1 ≠ 0) →
      (restore_list (fun _ => true) newElem handler false
          (beBytes 4 N ++ body)).retval ≠ 0 ∧
      (restore_list (fun _ => true) newElem handler false
          (beBytes 4 N ++ body)).elems.length = k + 1) ∧
    ((∀ j, j < k → allocOk j = true) → allocOk k = false →
      (∀ j, j < k → ∀ e s2, (handler j e s2).1 = 0) →
      (restore_list allocOk newElem handler false
          (beBytes 4 N ++ body)).retval ≠ 0 ∧
      (restore_list allocOk newElem handler false
          (beBytes 4 N ++ body)).elems.length = k) := by
  have hread := read_reliably_append body (beBytes_length 4 N)
  have hcount : beDec (beBytes 4 N) = N := by
    rw [beDec_beBytes4]
    exact Nat.mod_eq_of_lt hN32
  constructor
  · intro hsucc hfail
    have hloop := restore_list_loop_handler_fail newElem handler k 0 N
      body hkN
      (by intro j hj e s2; simpa using hsucc j hj e s2)
      (by intro e s2; simpa using hfail e s2)
    simp only [restore_list, hread, hcount]
    rw [if_neg (by simp)]
    exact ⟨hloop.1, hloop.2⟩
  · intro halloc hallocfail hsucc
    have hloop := restore_list_loop_alloc_fail newElem handler allocOk
      k 0 N body hkN
      (by intro j hj; simpa using halloc j hj)
      (by simpa using hallocfail)
      (by intro j hj e s2; simpa using hsucc j hj e s2)
    simp only [restore_list, hread, hcount]
    rw [if_neg (by simp)]
    exact ⟨hloop.1, hloop.2⟩

/-- C10 witness: N = 2; a handler failing on invocation 1 leaves 2
elements; an allocator failing at iteration 1 leaves 1 element. -/
theorem C10_witness :
    ((restore_list (fun _ => true) (0 : Nat)
        (fun j e s => (if j < 1 then 0 else -1, e, s)) false
        (beBytes 4 2 ++ [])).retval ≠ 0 ∧
      (restore_list (fun _ => true) (0 : Nat)
        (fun j e s => (if j < 1 then 0 else -1, e, s)) false
        (beBytes 4 2 ++ [])).elems.length = 1 + 1) ∧
    ((restore_list (fun j => decide (j < 1)) (0 : Nat)
        (fun _ e s => (0, e, s)) false
        (beBytes 4 2 ++ [])).retval ≠ 0 ∧
      (restore_list (fun j => decide (j < 1)) (0 : Nat)
        (fun _ e s => (0, e, s)) false
        (beBytes 4 2 ++ [])).elems.length = 1) :=
  ⟨(C10_restore_list_no_cleanup_keeps_elems 0
      (fun j e s => (if j < 1 then 0 else -1, e, s)) (fun _ => true) 2 1
      [] (by decide) (by decide)).1
      (by intro j hj e s2; simp [hj])
      (by intro e s2; simp),
    (C10_restore_list_no_cleanup_keeps_elems 0
      (fun _ e s => (0, e, s)) (fun j => decide (j < 1)) 2 1 []
      (by decide) (by decide)).2
      (by intro j hj; simp [hj])
      (by decide)
      (by intro j hj e s2; simp)⟩

/-- C4: for every supported scalar type, restoring the bytes produced by
storing a value yields that value bit-for-bit, the wire bytes have
exactly the declared width, and the layout is canonical big-endian: in
particular storing u32 0xDEADBEEF produces exactly DE AD BE EF.
(Floats and doubles are represented by their IEEE bit patterns, which is
all the byte-swapping codec ever inspects.) -/
theorem C4_scalar_round_trip_big_endian
    (v8 v16 v32 v64 f32 d64 : Nat) (b : Bool) (r : List Nat)
    (h8 : v8 < 2 ^ 8) (h16 : v16 < 2 ^ 16) (h32 : v32 < 2 ^ 32)
    (h64 : v64 < 2 ^ 64) (hf : f32 < 2 ^ 32) (hd : d64 < 2 ^ 64) :
    restore_bytes [0] ((persist_bytes [v8]).2 ++ r) = (0, [v8], r) ∧
    restore_u16 ((persist_u16 v16).2 ++ r) = (0, v16, r) ∧
    restore_u32 ((persist_u32 v32).2 ++ r) = (0, v32, r) ∧
    restore_u64 ((persist_u64 v64).2 ++ r) = (0, v64, r) ∧
    restore_bool ((persist_bool b).2 ++ r) = (0, b, r) ∧
    restore_float ((persist_float f32).2 ++ r) = (0, f32, r) ∧
    restore_double ((persist_double d64).2 ++ r) = (0, d64, r) ∧
    (persist_bool b).2.length = 1 ∧
    (persist_u16 v16).2.length = 2 ∧
    (persist_u32 v32).2.length = 4 ∧
    (persist_u64 v64).2.length = 8 ∧
    (persist_float f32).2.length = 4 ∧
    (persist_double d64).2.length = 8 ∧
    (persist_u32 0xDEADBEEF).2 = [0xDE, 0xAD, 0xBE, 0xEF] := by
  refine ⟨?_, restore_u16_wire r h16, restore_u32_wire r h32,
    restore_u64_wire r h64, ?_, ?_, ?_, ?_, ?_, ?_, ?_, ?_, ?_, ?_⟩
  · simp [persist_bytes, restore_bytes, avs_stream_read_reliably]
  · cases b <;>
      simp [persist_bool, restore_bool, avs_stream_read_reliably]
  · simp only [persist_float, restore_float,
      read_reliably_append r (beBytes_length 4 f32), beDec_beBytes4]
    rw [Nat.mod_eq_of_lt hf]
  · simp only [persist_double, restore_double,
      read_reliably_append r (beBytes_length 8 d64), beDec_beBytes8]
    rw [Nat.mod_eq_of_lt hd]
  · simp [persist_bool]
  · simp [persist_u16, beBytes_length]
  · simp [persist_u32, beBytes_length]
  · simp [persist_u64, beBytes_length]
  · simp [persist_float, beBytes_length]
  · simp [persist_double, beBytes_length]
  · decide

/-- C4 witness: concrete values for every scalar width. -/
theorem C4_witness :
    restore_bytes [0] ((persist_bytes [7]).2 ++ [9]) = (0, [7], [9]) ∧
    restore_u16 ((persist_u16 700).2 ++ [9]) = (0, 700, [9]) ∧
    restore_u32 ((persist_u32 0xDEADBEEF).2 ++ [9])
      = (0, 0xDEADBEEF, [9]) ∧
    restore_u64 ((persist_u64 (2 ^ 40 + 3)).2 ++ [9])
      = (0, 2 ^ 40 + 3, [9]) ∧
    restore_bool ((persist_bool true).2 ++ [9]) = (0, true, [9]) ∧
    restore_float ((persist_float 5).2 ++ [9]) = (0, 5, [9]) ∧
    restore_double ((persist_double 6).2 ++ [9]) = (0, 6, [9]) ∧
    (persist_bool true).2.length = 1 ∧
    (persist_u16 700).2.length = 2 ∧
    (persist_u32 0xDEADBEEF).2.length = 4 ∧
    (persist_u64 (2 ^ 40 + 3)).2.length = 8 ∧
    (persist_float 5).2.length = 4 ∧
    (persist_double 6).2.length = 8 ∧
    (persist_u32 0xDEADBEEF).2 = [0xDE, 0xAD, 0xBE, 0xEF] :=
  C4_scalar_round_trip_big_endian 7 700 0xDEADBEEF (2 ^ 40 + 3) 5 6
    true [9] (by decide) (by decide) (by decide) (by decide) (by decide)
    (by decide)

/-- C6: restoring a string whose declared length is positive but whose
final byte is not NUL fails, the allocated buffer is freed and the
output pointer is null afterwards (the stream having consumed the
length-prefixed payload). -/
theorem C6_restore_string_missing_nul_fails (payload : List Nat)
    (r : List Nat) (hne : payload ≠ []) (hlen : payload.length < 2 ^ 32)
    (hlast : payload.getLastD 0 ≠ 0) :
    restore_string true (beBytes 4 payload.length ++ (payload ++ r))
      = (-1, none, r) := by
  have hread := read_reliably_append (payload ++ r)
    (beBytes_length 4 payload.length)
  have hcount : beDec (beBytes 4 payload.length) = payload.length := by
    rw [beDec_beBytes4]
    exact Nat.mod_eq_of_lt hlen
  have hlen0 : payload.length ≠ 0 := fun h =>
    hne (List.eq_nil_of_length_eq_zero h)
  have hread2 : avs_stream_read_reliably payload.length (payload ++ r)
      = some (payload, r) := read_reliably_append r rfl
  simp [restore_string, restore_sized_buffer, restore_u32, hread,
    hcount, hlen0, hread2, hlast]
  simpa [List.getLastD_eq_getLast?] using hlast

/-- C6 witness: declared length 3, payload "ab" followed by a non-NUL
byte 0x61. -/
theorem C6_witness :
    restore_string true
        (beBytes 4 ([97, 98, 97] : List Nat).length
          ++ ([97, 98, 97] ++ [5])) = (-1, none, [5]) :=
  C6_restore_string_missing_nul_fails [97, 98, 97] [5]
    (by decide) (by decide) (by decide)

theorem persist_tree_u32_wire (ks : List Nat) (hlen : ks.length < 2 ^ 32) :
    persist_tree u32_elem_store_handler ks
      = (0, beBytes 4 ks.length ++ (ks.map (beBytes 4)).flatten) := by
  have helems := persist_collection_elems_all_ok u32_elem_store_handler ks
    fun e _ => rfl
  have hmod : ks.length % 4294967296 = ks.length := by omega
  simp [persist_tree, persist_u32, helems, u32_elem_store_handler, hmod]

theorem restore_tree_loop_u32_all_ok :
    ∀ (ks : List Nat) (t : List Nat) (r : List Nat),
      (ks.map (· % 2 ^ 32)).Nodup →
      (∀ x ∈ ks, x % 2 ^ 32 ∉ t) →
      ∃ t2, restore_tree_loop id 0 u32_elem_restore_handler ks.length t
          ((ks.map (beBytes 4)).flatten ++ r) = (0, t2, r, []) := by
  intro ks
  induction ks with
  | nil =>
    intro t r _ _
    exact ⟨t, by simp [restore_tree_loop]⟩
  | cons k ks ih =>
    intro t r hnodup hfresh
    have hw : ((k :: ks).map (beBytes 4)).flatten ++ r
        = beBytes 4 k ++ ((ks.map (beBytes 4)).flatten ++ r) := by
      simp [List.append_assoc]
    rw [hw]
    have hh : u32_elem_restore_handler 0
        (beBytes 4 k ++ ((ks.map (beBytes 4)).flatten ++ r))
        = (0, k % 2 ^ 32, (ks.map (beBytes 4)).flatten ++ r) := by
      simp [u32_elem_restore_handler, restore_u32,
        read_reliably_append ((ks.map (beBytes 4)).flatten ++ r)
          (beBytes_length 4 k), beDec_beBytes4]
    have hnotmem : (k % 2 ^ 32) ∉ t := hfresh k (by simp)
    have hdup : (t.any fun x => x == k % 2 ^ 32) = false := by
      rw [List.any_eq_false]
      intro x hx
      simp only [beq_iff_eq]
      intro hxeq
      apply hnotmem
      rw [← hxeq]
      exact hx
    have hdupP : ¬ (t.any fun x => x == k % 2 ^ 32) = true := by
      rw [hdup]
      exact Bool.false_ne_true
    have hins : rbtree_try_insert id t (k % 2 ^ 32)
        = some (rbtree_sorted_insert id (k % 2 ^ 32) t) := by
      simp only [rbtree_try_insert, id_eq]
      rw [if_neg hdupP]
    have hnodup2 : (ks.map (· % 2 ^ 32)).Nodup := by
      simp only [List.map_cons, List.nodup_cons] at hnodup
      exact hnodup.2
    have hknot : (k % 2 ^ 32) ∉ ks.map (· % 2 ^ 32) := by
      simp only [List.map_cons, List.nodup_cons] at hnodup
      exact hnodup.1
    have hfresh2 : ∀ x ∈ ks,
        x % 2 ^ 32 ∉ rbtree_sorted_insert id (k % 2 ^ 32) t := by
      intro x hx hmem
      have hmem2 : x % 2 ^ 32 ∈ (k % 2 ^ 32) :: t :=
        ((rbtree_sorted_insert_perm id (k % 2 ^ 32) t).mem_iff).mp hmem
      rcases List.mem_cons.mp hmem2 with heq | hint
      · exact hknot (heq ▸ List.mem_map_of_mem (· % 2 ^ 32) hx)
      · exact hfresh x (by simp [hx]) hint
    obtain ⟨t2, ht2⟩ := ih (rbtree_sorted_insert id (k % 2 ^ 32) t) r
      hnodup2 hfresh2
    refine ⟨t2, ?_⟩
    simp only [List.length_cons, restore_tree_loop, hh, hins]
    simpa using ht2

/-- C5: running the ignore-mode operation over bytes produced by the
corresponding store operation consumes exactly the bytes that the
restore-mode operation would consume (both end at the same stream
suffix `r`), and the ignore-mode operation returns every destination
argument untouched (the modelled ignore path also takes no allocation
oracle: it never allocates).  Collections are exercised with the
u32-element handler in all three of its mode views. -/
theorem C5_ignore_matches_restore_consumption {α : Type}
    (v16 v32 v64 f32 d64 : Nat) (b : Bool)
    (o16 o32 o64 of32 od64 : Nat) (ob : Bool)
    (data : List Nat) (d0 : Option (List Nat)) (sz0 : Nat)
    (ks kt : List Nat) (destL destT : List α) (r : List Nat)
    (hdata : data.length < 2 ^ 32)
    (hks : ks.length < 2 ^ 32)
    (hkt : kt.length < 2 ^ 32)
    (hktn : (kt.map (· % 2 ^ 32)).Nodup) :
    (ignore_u16 o16 ((persist_u16 v16).2 ++ r) = (0, o16, r) ∧
      (restore_u16 ((persist_u16 v16).2 ++ r)).2.2 = r) ∧
    (ignore_u32 o32 ((persist_u32 v32).2 ++ r) = (0, o32, r) ∧
      (restore_u32 ((persist_u32 v32).2 ++ r)).2.2 = r) ∧
    (ignore_u64 o64 ((persist_u64 v64).2 ++ r) = (0, o64, r) ∧
      (restore_u64 ((persist_u64 v64).2 ++ r)).2.2 = r) ∧
    (ignore_bool ob ((persist_bool b).2 ++ r) = (0, ob, r) ∧
      (restore_bool ((persist_bool b).2 ++ r)).2.2 = r) ∧
    (ignore_float of32 ((persist_float f32).2 ++ r) = (0, of32, r) ∧
      (restore_float ((persist_float f32).2 ++ r)).2.2 = r) ∧
    (ignore_double od64 ((persist_double d64).2 ++ r) = (0, od64, r) ∧
      (restore_double ((persist_double d64).2 ++ r)).2.2 = r) ∧
    (ignore_sized_buffer d0 sz0 ((persist_sized_buffer data).2 ++ r)
        = (0, d0, sz0, r) ∧
      (restore_sized_buffer true
          ((persist_sized_buffer data).2 ++ r)).2.2.2 = r) ∧
    (ignore_list destL u32_elem_ignore_handler
        ((persist_list u32_elem_store_handler ks).2 ++ r)
        = (0, destL, r) ∧
      (restore_list (fun _ => true) 0
          (fun _ e s => u32_elem_restore_handler e s) true
          ((persist_list u32_elem_store_handler ks).2 ++ r)).rest = r) ∧
    (ignore_tree destT u32_elem_ignore_handler
        ((persist_tree u32_elem_store_handler kt).2 ++ r)
        = (0, destT, r) ∧
      (restore_tree id 0 u32_elem_restore_handler
          ((persist_tree u32_elem_store_handler kt).2 ++ r)).rest
        = r) := by
  have hsbwire := persist_sized_buffer_wire data hdata
  have hlwire := persist_list_u32_wire ks hks
  have htwire := persist_tree_u32_wire kt hkt
  have hmodD : data.length % 4294967296 = data.length := by omega
  have hmodL : ks.length % 4294967296 = ks.length := by omega
  have hmodT : kt.length % 4294967296 = kt.length := by omega
  have hreadD := read_reliably_append (data ++ r)
    (beBytes_length 4 data.length)
  have hreadL := read_reliably_append ((ks.map (beBytes 4)).flatten ++ r)
    (beBytes_length 4 ks.length)
  have hreadT := read_reliably_append ((kt.map (beBytes 4)).flatten ++ r)
    (beBytes_length 4 kt.length)
  refine ⟨⟨?_, ?_⟩, ⟨?_, ?_⟩, ⟨?_, ?_⟩, ⟨?_, ?_⟩, ⟨?_, ?_⟩, ⟨?_, ?_⟩,
    ⟨?_, ?_⟩, ⟨?_, ?_⟩, ⟨?_, ?_⟩⟩
  · simp [persist_u16, ignore_u16,
      read_reliably_append r (beBytes_length 2 v16)]
  · simp [persist_u16, restore_u16,
      read_reliably_append r (beBytes_length 2 v16)]
  · simp [persist_u32, ignore_u32,
      read_reliably_append r (beBytes_length 4 v32)]
  · simp [persist_u32, restore_u32,
      read_reliably_append r (beBytes_length 4 v32)]
  · simp [persist_u64, ignore_u64,
      read_reliably_append r (beBytes_length 8 v64)]
  · simp [persist_u64, restore_u64,
      read_reliably_append r (beBytes_length 8 v64)]
  · cases b <;>
      simp [persist_bool, ignore_bool, avs_stream_read_reliably]
  · cases b <;>
      simp [persist_bool, restore_bool, avs_stream_read_reliably]
  · simp [persist_float, ignore_float,
      read_reliably_append r (beBytes_length 4 f32)]
  · simp [persist_float, restore_float,
      read_reliably_append r (beBytes_length 4 f32)]
  · simp [persist_double, ignore_double,
      read_reliably_append r (beBytes_length 8 d64)]
  · simp [persist_double, restore_double,
      read_reliably_append r (beBytes_length 8 d64)]
  · rw [hsbwire]
    have hib := ignore_bytes_exact data.length data r rfl
    simp [ignore_sized_buffer, restore_u32, List.append_assoc, hreadD,
      beDec_beBytes4, hmodD, hib]
  · rw [hsbwire]
    by_cases h0 : data.length = 0
    · have hdnil : data = [] := List.eq_nil_of_length_eq_zero h0
      subst hdnil
      simp [restore_sized_buffer, restore_u32,
        read_reliably_append r (beBytes_length 4 0), beDec_beBytes4]
    · have hread2 : avs_stream_read_reliably data.length (data ++ r)
          = some (data, r) := read_reliably_append r rfl
      simp [restore_sized_buffer, restore_u32, List.append_assoc,
        hreadD, beDec_beBytes4, hmodD, h0, hread2]
  · rw [hlwire]
    have hloop := ignore_collection_loop_u32 ks r
    simp [ignore_list, ignore_collection, restore_u32,
      List.append_assoc, hreadL, beDec_beBytes4, hmodL, hloop]
  · rw [hlwire]
    have hloop := restore_list_loop_u32 ks 0 r
    simp [restore_list, List.append_assoc, hreadL, beDec_beBytes4,
      hmodL, hloop]
  · rw [htwire]
    have hloop := ignore_collection_loop_u32 kt r
    simp [ignore_tree, ignore_collection, restore_u32,
      List.append_assoc, hreadT, beDec_beBytes4, hmodT, hloop]
  · rw [htwire]
    obtain ⟨t2, ht2⟩ := restore_tree_loop_u32_all_ok kt [] r hktn
      (by simp)
    simp [restore_tree, List.append_assoc, hreadT, beDec_beBytes4,
      hmodT, ht2]

/-- C5 witness: concrete values for every operation; stated for the
sorted-collection conjunct, obtained by applying the main theorem at a
fully concrete instantiation. -/
theorem C5_witness :
    ignore_tree ([7] : List Nat) u32_elem_ignore_handler
        ((persist_tree u32_elem_store_handler [30, 40]).2 ++ [99])
        = (0, [7], [99]) ∧
      (restore_tree id 0 u32_elem_restore_handler
          ((persist_tree u32_elem_store_handler [30, 40]).2
            ++ [99])).rest = [99] :=
  (C5_ignore_matches_restore_consumption 1 2 3 4 5 true 91 92 93 94 95
      false [8, 9] (some [1]) 7 [10, 20] [30, 40] [6] [7] [99]
      (by decide) (by decide) (by decide) (by decide)).2.2.2.2.2.2.2.2
